import Mathlib

/-!
# Verification of the CodeDog analysis backend

Shallow embedding of the analysis pipeline of this repository
(`backend/services/analysisEngine.js`, `backend/services/aiService.js`,
`backend/models/Job.js`, `backend/services/githubService.js`) and proofs of the
specified properties.

Modelling conventions:
* JavaScript numbers are modelled as exact rationals (`ℚ`); `Math.round` is
  `round : ℚ → ℤ`, which equals `⌊x + 1/2⌋`, the same convention as JS.
* The job store (`job.save()`, `job.addLog`, `job.addAlert` persistence) is
  treated as a reliable collaborator: saves do not fail.  Likewise `io.emit`
  never throws.  `githubService.cleanup` and the `log.*` console helpers catch
  internally and never throw (verified against their sources).
* Log messages are interpolated strings; log events are modelled by their
  level and source only, and the persisted `job.logs` array is elided, since
  no claim refers to message texts.
* The background run `runAnalysis` is modelled as a total function from an
  environment describing the outcomes of the fallible external calls
  (repository clone, commit listing, per-item oracle verdicts, and an internal
  scoring error) to the final job state plus the ordered trace of emitted
  events and external cleanup calls.
-/

namespace CodeDog

/-! ## Basic enumerations (Job model, `backend/models/Job.js`) -/

/-- Dependency risk tier: `riskLevel` enum of `dependencyAnalysisSchema`. -/
inductive RiskTier | safe | low | medium | high | critical
deriving DecidableEq

/-- Alert severity: `severity` enum of `alertSchema`. -/
inductive Severity | low | medium | high | critical
deriving DecidableEq

/-- Job risk level: `riskLevel` enum of `jobSchema`. -/
inductive RiskLevel | low | medium | high | critical
deriving DecidableEq

/-- Job status.  The schema enum also lists `building`, but the engine never
assigns it, so it is omitted from the embedding of the engine's state machine. -/
inductive JobStatus | pending | cloning | analyzing | completed | failed
deriving DecidableEq

/-- Log level of an emitted log event (message text elided). -/
inductive LogLevel | info | warn | error
deriving DecidableEq

/-- Log source of an emitted log event. -/
inductive LogSource | system | build | analysis | ai
deriving DecidableEq

/-- Alert category as assigned by the engine (`type` field). -/
inductive AlertType | commit | dependency
deriving DecidableEq

/-! ## Risk scoring (`AnalysisEngine.calculateRiskScore`, lines 391-440) -/

/-- `riskLevelScores = { safe: 0, low: 25, medium: 50, high: 75, critical: 100 }`. -/
def riskLevelScores : RiskTier → ℚ
  | .safe => 0
  | .low => 25
  | .medium => 50
  | .high => 75
  | .critical => 100

/-- `severityScores = { low: 25, medium: 50, high: 75, critical: 100 }`. -/
def severityScores : Severity → ℚ
  | .low => 25
  | .medium => 50
  | .high => 75
  | .critical => 100

/-- The `totalScore` / `factors` accumulation of `calculateRiskScore`:
each factor is added only when its source list is non-empty. -/
def scoreAccum (commitScores : List ℚ) (depTiers : List RiskTier)
    (alertSevs : List Severity) : ℚ × ℚ :=
  let s0 : ℚ × ℚ := (0, 0)
  let s1 := if commitScores.length > 0 then
      (s0.1 + (commitScores.sum / (commitScores.length : ℚ)) * (0.4 : ℚ),
       s0.2 + (0.4 : ℚ))
    else s0
  let s2 := if depTiers.length > 0 then
      (s1.1 + ((depTiers.map riskLevelScores).sum / (depTiers.length : ℚ)) * (0.35 : ℚ),
       s1.2 + (0.35 : ℚ))
    else s1
  let s3 := if alertSevs.length > 0 then
      (s2.1 + ((alertSevs.map severityScores).sum / (alertSevs.length : ℚ)) * (0.25 : ℚ),
       s2.2 + (0.25 : ℚ))
    else s2
  s3

/-- Level thresholds of `calculateRiskScore`:
`>= 75` critical, `>= 50` high, `>= 25` medium, otherwise low. -/
def codeRiskLevel (riskScore : ℤ) : RiskLevel :=
  if riskScore ≥ 75 then .critical
  else if riskScore ≥ 50 then .high
  else if riskScore ≥ 25 then .medium
  else .low

/-- The pure core of `AnalysisEngine.calculateRiskScore`: weighted factors over
the non-empty signal lists, renormalized, `Math.round`ed; `0` when no factor
is present; paired with the threshold level. -/
def calculateRiskScore (commitScores : List ℚ) (depTiers : List RiskTier)
    (alertSevs : List Severity) : ℤ × RiskLevel :=
  let ts := scoreAccum commitScores depTiers alertSevs
  let riskScore : ℤ := if ts.2 > 0 then round (ts.1 / ts.2) else 0
  (riskScore, codeRiskLevel riskScore)

/-- Arithmetic mean of a list of rationals (spec-side definition). -/
def listMean (l : List ℚ) : ℚ := l.sum / (l.length : ℚ)

/-- Modelled from the spec wording (§4.3): the list of included
(factor, nominal weight) pairs, a factor being included only when its source
list is non-empty. -/
def specFactors (commitScores : List ℚ) (depTiers : List RiskTier)
    (alertSevs : List Severity) : List (ℚ × ℚ) :=
  (if commitScores ≠ [] then [(listMean commitScores, (0.4 : ℚ))] else []) ++
  (if depTiers ≠ [] then [(listMean (depTiers.map riskLevelScores), (0.35 : ℚ))] else []) ++
  (if alertSevs ≠ [] then [(listMean (alertSevs.map severityScores), (0.25 : ℚ))] else [])

/-- Modelled from the spec wording (§4.3): final score =
`(Σ included factor×weight) / (Σ included weights)`, rounded to the nearest
integer; `0` if no factor is present. -/
def specScore (commitScores : List ℚ) (depTiers : List RiskTier)
    (alertSevs : List Severity) : ℤ :=
  let fs := specFactors commitScores depTiers alertSevs
  if fs = [] then 0
  else round ((fs.map fun p => p.1 * p.2).sum / (fs.map Prod.snd).sum)

/-- Modelled from the spec wording (§4.3): level thresholds
`< 25` low, `25-49` medium, `50-74` high, `>= 75` critical. -/
def specLevel (s : ℤ) : RiskLevel :=
  if s < 25 then .low
  else if s < 50 then .medium
  else if s < 75 then .high
  else .critical

/-! ## Confidence sanitization (`sanitizeConfidence`, analysisEngine.js lines 14-40) -/

/-- The JavaScript value supplied as a verdict confidence, at the granularity
the sanitizer distinguishes: a number, a numeric string (its `parseFloat`
value), a percentage string (the `parseFloat` value of its numeric prefix),
a percentage string with no numeric prefix (`parseFloat` gives `NaN`),
`null`, `undefined` (also: a missing field), or any other non-string,
non-number value (object, boolean, ...).  A plain non-numeric string (for
which the JS code propagates `NaN`) is outside the claim's input domain and is
not modelled. -/
inductive ConfValue
  | num (q : ℚ)
  | numStr (q : ℚ)
  | pctStr (q : ℚ)
  | pctStrNaN
  | nullv
  | undef
  | other
deriving DecidableEq

/-- `sanitizeConfidence` (analysisEngine.js lines 14-40).
`null`/`undefined` give 0; a percentage string is divided by 100 and clamped
(`Math.min(Math.max(p, 0), 1) || 0`; on a rational the `|| 0` is the
identity, and on the `NaN` prefix case it yields 0); a numeric string is
`parseFloat`ed and falls through to the number branch; a number `> 1` is
divided by 100 and capped at 1, otherwise clamped into `[0, 1]`; any other
type gives 0. -/
def sanitizeConfidence : ConfValue → ℚ
  | .nullv => 0
  | .undef => 0
  | .pctStr q => min (max (q / 100) 0) 1
  | .pctStrNaN => 0
  | .numStr q => if q > 1 then min (q / 100) 1 else max 0 (min q 1)
  | .num q => if q > 1 then min (q / 100) 1 else max 0 (min q 1)
  | .other => 0

/-! ## Threat oracle adapter (`AIService`, backend/services/aiService.js) -/

/-- The character `{` (written via its code point to keep string handling
explicit). -/
def lbrace : Char := Char.ofNat 123

/-- The character `}`. -/
def rbrace : Char := Char.ofNat 125

/-- `AIService.getFallbackResponse(...).response`: the literal text returned
as the oracle "response" whenever the service is unavailable or the request
errors. -/
def fallbackResponseText : String := "AI service unavailable - using fallback analysis"

/-- Whether the regex `/\x7b[\s\S]*\x7d/` of `parseAIResponse` matches `s`:
there is a `{` with a `}` somewhere after it. -/
def hasJsonBraces (s : String) : Bool :=
  match s.toList.dropWhile (fun c => c ≠ lbrace) with
  | [] => false
  | _ :: rest => rest.contains rbrace

/-- The matched substring `jsonMatch[0]`: from the first `{` through the last
`}` (the regex's `[\s\S]*` is greedy). -/
def extractJson (s : String) : String :=
  ⟨((s.toList.dropWhile (fun c => c ≠ lbrace)).reverse.dropWhile
      (fun c => c ≠ rbrace)).reverse⟩

/-- Typosquatting assessment object of a dependency verdict. -/
structure Typosquat where
  isTyposquat : Bool
  similarPackages : List String
  confidence : ConfValue
deriving DecidableEq

/-- The duck-typed object returned by `AIService.analyzeCommit` /
`analyzeDependency`: either a parsed JSON verdict (some subset of the verdict
fields present) or the parse-failure object `{ error, rawResponse }` with no
verdict fields at all.  A missing field is `none` (confidence: `undef`). -/
structure AIResult where
  riskScore : Option ℚ := none
  threats : Option (List String) := none
  suspiciousPatterns : Option (List String) := none
  confidence : ConfValue := ConfValue.undef
  summary : Option String := none
  riskLevel : Option RiskTier := none
  typosquatting : Option Typosquat := none
  error : Option String := none
  rawResponse : Option String := none
deriving DecidableEq

/-- `AIService.getFallbackCommitAnalysis` (aiService.js lines 330-338):
riskScore 25, threats `['AI analysis unavailable']`, confidence 0.1. -/
def getFallbackCommitAnalysis : AIResult :=
  { riskScore := some 25,
    threats := some ["AI analysis unavailable"],
    suspiciousPatterns := some [],
    confidence := ConfValue.num (0.1 : ℚ),
    summary := some "Fallback analysis - AI service unavailable" }

/-- `AIService.getFallbackDependencyAnalysis` (aiService.js lines 340-352). -/
def getFallbackDependencyAnalysis : AIResult :=
  { riskLevel := some .medium,
    threats := some ["AI analysis unavailable"],
    typosquatting := some ⟨false, [], ConfValue.num (0.1 : ℚ)⟩,
    confidence := ConfValue.num (0.1 : ℚ),
    summary := some "Fallback analysis - AI service unavailable" }

/-- The `{ error: 'Could not parse AI response', rawResponse }` object. -/
def parseErrorNoJson (response : String) : AIResult :=
  { error := some "Could not parse AI response", rawResponse := some response }

/-- The `{ error: 'JSON parse error', rawResponse }` object. -/
def parseErrorBadJson (response : String) : AIResult :=
  { error := some "JSON parse error", rawResponse := some response }

/-- `AIService.parseAIResponse` (aiService.js lines 298-319).  `jsonParse`
abstracts `JSON.parse` on the matched substring (`none` models a throw).
When no JSON object is found, or parsing throws, the function returns a
structured error object instead of throwing. -/
def parseAIResponse (jsonParse : String → Option AIResult) (response : String) : AIResult :=
  if hasJsonBraces response then
    match jsonParse (extractJson response) with
    | some v => v
    | none => parseErrorBadJson response
  else parseErrorNoJson response

/-- Outcome of one oracle consultation.  `unavailable` covers both
`isAvailable = false` and an axios error: in both cases `generateResponse`
catches internally and returns the fallback response object (it never
throws). -/
inductive OracleOutcome
  | unavailable
  | ok (response : String)
deriving DecidableEq

/-- The `response` string handed to `parseAIResponse`
(`AIService.generateResponse`). -/
def generateResponse : OracleOutcome → String
  | .unavailable => fallbackResponseText
  | .ok r => r

/-- `AIService.analyzeCommit` (aiService.js lines 128-185).  The
`catch { return getFallbackCommitAnalysis() }` branch is unreachable:
`generateResponse` and `parseAIResponse` both catch internally and never
throw, so the body reduces to parsing the generated response. -/
def analyzeCommit (jsonParse : String → Option AIResult) (o : OracleOutcome) : AIResult :=
  parseAIResponse jsonParse (generateResponse o)

/-- `AIService.analyzeDependency` (aiService.js lines 187-246); the fallback
catch branch is unreachable for the same reason as `analyzeCommit`. -/
def analyzeDependency (jsonParse : String → Option AIResult) (o : OracleOutcome) : AIResult :=
  parseAIResponse jsonParse (generateResponse o)

/-! ## Engine: attaching verdicts (`AnalysisEngine.analyzeCommits` / `analyzeDependencies`) -/

/-- `x || 0` on an optional JS number: a missing value gives 0 (and `0 || 0`
is 0, so `Option.getD`-style elimination is exact on rationals). -/
def jsNumOrZero : Option ℚ → ℚ
  | some q => q
  | none => 0

/-- The commit record fields written in `analyzeCommits` (lines 215-220):
`riskScore = aiAnalysis.riskScore || 0` and the attached verdict with
sanitized confidence. -/
structure AttachedCommit where
  riskScore : ℚ
  threats : List String
  confidence : ℚ
  summary : Option String
deriving DecidableEq

/-- Attachment of an oracle result to a commit (lines 215-220). -/
def attachCommit (a : AIResult) : AttachedCommit :=
  { riskScore := jsNumOrZero a.riskScore,
    threats := a.threats.getD [],
    confidence := sanitizeConfidence a.confidence,
    summary := a.summary }

/-- The dependency record fields written in `analyzeDependencies`
(lines 283-297). -/
structure AttachedDep where
  riskLevel : RiskTier
  vulnerabilities : List String
  typosquatting : Typosquat
  confidence : ℚ
  summary : Option String
deriving DecidableEq

/-- Attachment of an oracle result to a dependency (lines 283-297):
`riskLevel = aiAnalysis.riskLevel || 'safe'`, default typosquatting object,
sanitized confidence. -/
def attachDep (a : AIResult) : AttachedDep :=
  { riskLevel := a.riskLevel.getD .safe,
    vulnerabilities := a.threats.getD [],
    typosquatting := a.typosquatting.getD ⟨false, [], ConfValue.num 0⟩,
    confidence := sanitizeConfidence a.confidence,
    summary := a.summary }

/-- An entry of `job.alerts`.  `viaEmit` marks the copy appended by
`emitAlert` (which persists a second alert object carrying only severity,
type, title and description) as opposed to the direct `job.addAlert` call.
Title/description/details payloads are elided. -/
structure AlertRec where
  severity : Severity
  atype : AlertType
  viaEmit : Bool
deriving DecidableEq

/-- Severity chosen for a high-risk commit alert (line 228):
`critical` if `riskScore > 90`, else `high`. -/
def commitSeverity (riskScore : ℚ) : Severity :=
  if riskScore > 90 then .critical else .high

/-- The alerts appended to `job.alerts` for one analyzed commit
(lines 226-247): none unless `riskScore > 70`; otherwise the direct
`addAlert` entry followed by the `emitAlert` persistence entry, both with the
same severity. -/
def commitAlerts (c : AttachedCommit) : List AlertRec :=
  if c.riskScore > 70 then
    [⟨commitSeverity c.riskScore, .commit, false⟩,
     ⟨commitSeverity c.riskScore, .commit, true⟩]
  else []

/-! ## Events -/

/-- Terminal `done` payload riskLevel: the job's level, the literal string
`'unknown'` (failure path), or JS `undefined` (field never set). -/
inductive LevelTag
  | lvl (l : RiskLevel)
  | unknownLvl
  | undefinedLvl
deriving DecidableEq

/-- Payload of a `done` event (success shape of lines 142-153, failure shape
of lines 791-802).  `riskScore = none` models an `undefined` field. -/
structure DonePayload where
  riskScore : Option ℤ
  riskLevel : LevelTag
  totalAlerts : ℕ
  criticalAlerts : ℕ
  dependencyIssues : ℕ
  commitIssues : ℕ
  errMsg : Option String
deriving DecidableEq

/-- One observable step of the background run: a write to `job.status` or
`job.progress`, a socket event (`progress` / `log` / `alert` / `done`), the
`githubService.cleanup` workspace removal, or a `DockerService.cleanup`
sandbox teardown (the last constructor exists so that the teardown claim can
be stated; the engine's run never produces it, mirroring the source, which
never invokes the Docker service). -/
inductive Event
  | statusSet (s : JobStatus)
  | progressSet (p : ℚ)
  | progressEv (pct : ℚ) (stage : JobStatus)
  | logEv (level : LogLevel) (source : LogSource)
  | alertEv (sev : Severity) (ty : AlertType)
  | doneEv (d : DonePayload)
  | ghCleanup
  | dockerTeardown
deriving DecidableEq

/-- Socket events emitted while processing one commit (lines 241-252): the
`emitAlert` broadcast when `riskScore > 70`, then the per-commit
`Analyzed commit ...` log. -/
def commitSocketEvents (c : AttachedCommit) : List Event :=
  (if c.riskScore > 70 then [Event.alertEv (commitSeverity c.riskScore) .commit] else []) ++
  [Event.logEv .info .analysis]

/-- Severity chosen for a risky-dependency alert (line 304). -/
def depSeverity (t : RiskTier) : Severity :=
  if t = .critical then .critical else .high

/-- The alerts appended to `job.alerts` for one analyzed dependency
(lines 302-347): a pair (direct + emit copy) when the tier is high/critical,
then a pair of `high` typosquatting alerts when flagged. -/
def depAlerts (d : AttachedDep) : List AlertRec :=
  (if d.riskLevel = .high ∨ d.riskLevel = .critical then
    [⟨depSeverity d.riskLevel, .dependency, false⟩,
     ⟨depSeverity d.riskLevel, .dependency, true⟩]
   else []) ++
  (if d.typosquatting.isTyposquat then
    [⟨.high, .dependency, false⟩, ⟨.high, .dependency, true⟩]
   else [])

/-- Socket events emitted while processing one dependency (lines 318-352). -/
def depSocketEvents (d : AttachedDep) : List Event :=
  (if d.riskLevel = .high ∨ d.riskLevel = .critical then
    [Event.alertEv (depSeverity d.riskLevel) .dependency]
   else []) ++
  (if d.typosquatting.isTyposquat then [Event.alertEv .high .dependency] else []) ++
  [Event.logEv .info .analysis]

/-! ## Engine: job state and pipeline -/

/-- The claim-relevant fields of a Job document.  `endTime`, `repoInfo`,
`aiSummary`, `summaryReport`, `logs` and the `buildInfo.duration` are elided
(no claim refers to them). -/
structure JobState where
  status : JobStatus
  progress : ℚ
  commits : List AttachedCommit
  dependencies : List AttachedDep
  alerts : List AlertRec
  riskScore : Option ℤ
  riskLevel : Option RiskLevel
  buildSuccess : Option Bool
  buildErrors : List String
deriving DecidableEq

/-- The freshly created job of `startAnalysis` (status `pending`, progress 0,
empty accumulators). -/
def initialJob : JobState :=
  { status := .pending, progress := 0, commits := [], dependencies := [],
    alerts := [], riskScore := none, riskLevel := none,
    buildSuccess := none, buildErrors := [] }

/-- `AnalysisEngine.updateJobStatus` (lines 674-707): set status and
progress, persist (the `addLog` bookkeeping entry is elided), then emit a
`progress` socket event. -/
def updateJobStatus (st : JobState) (s : JobStatus) (p : ℚ) : JobState × List Event :=
  ({ st with status := s, progress := p },
   [Event.statusSet s, Event.progressSet p, Event.progressEv p s])

/-- Processing of one commit inside the batch loop (lines 210-257): attach
the verdict, push the commit, append its alerts, emit its socket events. -/
def processCommit (st : JobState) (a : AIResult) : JobState × List Event :=
  let c := attachCommit a
  ({ st with commits := st.commits ++ [c], alerts := st.alerts ++ commitAlerts c },
   commitSocketEvents c)

/-- The inner `for (const commit of batch)` loop. -/
def processCommitsFold (st : JobState) (batch : List AIResult) : JobState × List Event :=
  batch.foldl (fun acc a =>
    let r := processCommit acc.1 a
    (r.1, acc.2 ++ r.2)) (st, [])

/-- The per-batch progress value (line 260):
`15 + Math.round((i / commits.length) * 25)`. -/
def batchProgress (n : ℕ) (i : ℕ) : ℚ :=
  15 + ((round ((i : ℚ) / (n : ℚ) * 25) : ℤ) : ℚ)

/-- The batch start indices of the loop
`for (let i = 0; i < commits.length; i += batchSize)` with `batchSize = 5`:
`0, 5, 10, ...` while `< n`, i.e. `⌈n/5⌉` iterations. -/
def batchStarts (n : ℕ) : List ℕ :=
  (List.range ((n + 4) / 5)).map (fun k => 5 * k)

/-- One iteration of the batch loop: `commits.slice(i, i+5)` is processed,
then the batch progress update runs `updateJobStatus(job, 'analyzing', ...)`. -/
def commitBatchStep (replies : List AIResult) (n : ℕ)
    (acc : JobState × List Event) (i : ℕ) : JobState × List Event :=
  let batch := (replies.drop i).take 5
  let r1 := processCommitsFold acc.1 batch
  let r2 := updateJobStatus r1.1 .analyzing (batchProgress n i)
  (r2.1, acc.2 ++ r1.2 ++ r2.2)

/-- `AnalysisEngine.analyzeCommits` (lines 199-270) given the listing
succeeded with one oracle verdict per commit: the initial
`Found N commits to analyze` log, then the batch loop.  (The final
`job.save()` is a persistence no-op in this model.) -/
def analyzeCommitsPhase (replies : List AIResult) (st : JobState) : JobState × List Event :=
  (batchStarts replies.length).foldl (commitBatchStep replies replies.length)
    (st, [Event.logEv .info .analysis])

/-- Processing of one dependency (lines 278-357): attach, push, append
alerts, emit socket events. -/
def processDep (st : JobState) (a : AIResult) : JobState × List Event :=
  let d := attachDep a
  ({ st with dependencies := st.dependencies ++ [d], alerts := st.alerts ++ depAlerts d },
   depSocketEvents d)

/-- `AnalysisEngine.analyzeDependencies` (lines 272-365).
`githubService.analyzeDependencies` never throws (it catches internally and
returns `[]`), per-item failures are caught in the loop, and saves are
reliable, so this phase never fails the job. -/
def analyzeDepsPhase (deps : List AIResult) (st : JobState) : JobState × List Event :=
  deps.foldl (fun acc a =>
      let r := processDep acc.1 a
      (r.1, acc.2 ++ r.2))
    (st, [Event.logEv .info .analysis])

/-- `AnalysisEngine.runAIAnalysis` (lines 367-389): two `ai` log events; the
`job.aiSummary` write is elided; the catch makes any failure non-fatal. -/
def runAIAnalysisPhase (st : JobState) : JobState × List Event :=
  (st, [Event.logEv .info .ai, Event.logEv .info .ai])

/-- `AnalysisEngine.calculateRiskScore` as executed in the pipeline
(lines 391-440).  `fails` models any internal error thrown inside the `try`
body: the catch logs an `error` event and assigns the safe default
(score 50, level medium); otherwise the computed pair is stored and an
`info` log is emitted. -/
def scoringPhase (fails : Bool) (st : JobState) : JobState × List Event :=
  if fails then
    ({ st with riskScore := some 50, riskLevel := some .medium },
     [Event.logEv .error .analysis])
  else
    let r := calculateRiskScore (st.commits.map (fun c => c.riskScore))
      (st.dependencies.map (fun d => d.riskLevel))
      (st.alerts.map (fun a => a.severity))
    ({ st with riskScore := some r.1, riskLevel := some r.2 },
     [Event.logEv .info .analysis])

/-- `AnalysisEngine.generateFinalAssessment` (lines 442-464): two `system`
log events; `repoInfo` / `summaryReport` writes elided; never fatal. -/
def finalAssessmentPhase (st : JobState) : JobState × List Event :=
  (st, [Event.logEv .info .system, Event.logEv .info .system])

/-- The success `done` payload (lines 142-153), computed from the final job
state: `totalAlerts` / `criticalAlerts` virtuals, the high/critical
dependency count, and the count of commits with `riskScore > 70`. -/
def successDone (st : JobState) : DonePayload :=
  { riskScore := st.riskScore,
    riskLevel := match st.riskLevel with
      | some l => LevelTag.lvl l
      | none => LevelTag.undefinedLvl,
    totalAlerts := st.alerts.length,
    criticalAlerts := (st.alerts.filter (fun a => a.severity = Severity.critical)).length,
    dependencyIssues := (st.dependencies.filter
      (fun d => d.riskLevel = RiskTier.high ∨ d.riskLevel = RiskTier.critical)).length,
    commitIssues := (st.commits.filter (fun c => c.riskScore > 70)).length,
    errMsg := none }

/-- The failure `done` payload (lines 791-802): riskScore 0, riskLevel
`'unknown'`, zeroed summary, the triggering error message. -/
def failureDone (msg : String) : DonePayload :=
  { riskScore := some 0, riskLevel := .unknownLvl, totalAlerts := 0,
    criticalAlerts := 0, dependencyIssues := 0, commitIssues := 0,
    errMsg := some msg }

/-- `AnalysisEngine.handleAnalysisError` (lines 777-811): set status
`failed`, record the error in `buildInfo`, persist, emit an error log, emit
the failure `done` event, then run the workspace cleanup.  Its own catch
swallows persistence errors, so it never throws. -/
def handleAnalysisError (st : JobState) (msg : String) : JobState × List Event :=
  ({ st with status := .failed, buildSuccess := some false, buildErrors := [msg] },
   [Event.statusSet .failed, Event.logEv .error .system,
    Event.doneEv (failureDone msg), Event.ghCleanup])

/-- The completion block of `runAnalysis` (lines 127-157): set `completed`,
progress 100 (with no `progress` socket event), record the build outcome,
log, emit the success `done` event, then run the workspace cleanup. -/
def completeRun (st : JobState) : JobState × List Event :=
  let stC := { st with
    status := JobStatus.completed,
    progress := (100 : ℚ),
    buildSuccess := some true }
  (stC, [Event.statusSet .completed, Event.progressSet 100, Event.logEv .info .system,
         Event.doneEv (successDone stC), Event.ghCleanup])

/-- Environment of one background run: the outcome of the repository clone
(phase 1), of the commit listing together with the per-commit oracle
verdicts (phase 2), the per-dependency oracle verdicts, and whether the
scoring step hits an internal error.  These are exactly the operations that
can fail or vary; saves and emits are reliable (see module docstring). -/
structure RunEnv where
  cloneOutcome : Except String Unit
  commitListing : Except String (List AIResult)
  depVerdicts : List AIResult
  scoringFails : Bool

/-- `AnalysisEngine.runAnalysis` (lines 92-168): the six phases in order,
with `handleAnalysisError` on the failure paths.  Log events correspond to
the `emitLog` calls of the source in order; a clone failure passes through
`cloneRepository`'s catch (info + error logs) and a commit-listing failure
through `analyzeCommits`' catch (error log) before reaching the handler. -/
def runAnalysis (env : RunEnv) : JobState × List Event :=
  let r1 := updateJobStatus initialJob .cloning 5
  let e2 := [Event.logEv .info .system]
  match env.cloneOutcome with
  | .error msg =>
      let e3 := [Event.logEv .info .system, Event.logEv .error .system]
      let rF := handleAnalysisError r1.1 msg
      (rF.1, r1.2 ++ e2 ++ e3 ++ rF.2)
  | .ok _ =>
      let e3 := [Event.logEv .info .system, Event.logEv .info .system]
      let r4 := updateJobStatus r1.1 .cloning 15
      let e5 := [Event.logEv .info .analysis]
      match env.commitListing with
      | .error msg =>
          let e6 := [Event.logEv .error .analysis]
          let rF := handleAnalysisError r4.1 msg
          (rF.1, r1.2 ++ e2 ++ e3 ++ r4.2 ++ e5 ++ e6 ++ rF.2)
      | .ok replies =>
          let r6 := analyzeCommitsPhase replies r4.1
          let r7 := updateJobStatus r6.1 .analyzing 40
          let e8 := [Event.logEv .info .analysis]
          let r9 := analyzeDepsPhase env.depVerdicts r7.1
          let r10 := updateJobStatus r9.1 .analyzing 60
          let e11 := [Event.logEv .info .ai]
          let r12 := runAIAnalysisPhase r10.1
          let r13 := updateJobStatus r12.1 .analyzing 80
          let e14 := [Event.logEv .info .analysis]
          let r15 := scoringPhase env.scoringFails r13.1
          let r16 := updateJobStatus r15.1 .analyzing 90
          let e17 := [Event.logEv .info .ai]
          let r18 := finalAssessmentPhase r16.1
          let r19 := completeRun r18.1
          (r19.1, r1.2 ++ e2 ++ e3 ++ r4.2 ++ e5 ++ r6.2 ++ r7.2 ++ e8 ++ r9.2 ++
            r10.2 ++ e11 ++ r12.2 ++ r13.2 ++ e14 ++ r15.2 ++ r16.2 ++ e17 ++
            r18.2 ++ r19.2)

/-! ## Trace projections -/

/-- Projection of a `job.status` write. -/
def statusProj : Event → Option JobStatus
  | .statusSet s => some s
  | _ => none

/-- Projection of a `job.progress` write. -/
def progressProj : Event → Option ℚ
  | .progressSet p => some p
  | _ => none

/-- Projection of a `done` socket event. -/
def doneProj : Event → Option DonePayload
  | .doneEv d => some d
  | _ => none

/-- The successive values of `job.status`, starting from the `pending` value
assigned at creation. -/
def statusTrace (env : RunEnv) : List JobStatus :=
  JobStatus.pending :: (runAnalysis env).2.filterMap statusProj

/-- The successive values of `job.progress`, starting from the 0 assigned at
creation. -/
def progressTrace (env : RunEnv) : List ℚ :=
  0 :: (runAnalysis env).2.filterMap progressProj

/-- The `done` events of a run, in emission order. -/
def doneEvents (env : RunEnv) : List DonePayload :=
  (runAnalysis env).2.filterMap doneProj

/-- The message of the first fatal phase failure, if any: only the clone and
the commit listing can abort the run (all later phases catch internally). -/
def failureMsg (env : RunEnv) : Option String :=
  match env.cloneOutcome with
  | .error m => some m
  | .ok _ =>
      match env.commitListing with
      | .error m => some m
      | .ok _ => none

/-- Whether a status is terminal. -/
def isTerminal : JobStatus → Bool
  | .completed => true
  | .failed => true
  | _ => false

/-- The allowed status evolution of §4.1: staying put, the forward edges
`pending → cloning → analyzing → completed`, or a move from a non-terminal
state to `failed`. -/
def allowedMove : JobStatus → JobStatus → Bool
  | a, b =>
    a == b ||
    (match a, b with
     | .pending, .cloning => true
     | .cloning, .analyzing => true
     | .analyzing, .completed => true
     | a', .failed => !(isTerminal a')
     | _, _ => false)

/-- Events a phase may emit (everything except `done` and the cleanup
calls); used to show phases emit no terminal event and no teardown. -/
def isPhaseEvent : Event → Bool
  | .statusSet _ => true
  | .progressSet _ => true
  | .progressEv _ _ => true
  | .logEv _ _ => true
  | .alertEv _ _ => true
  | _ => false

/-! ## Sandbox manager (`DockerService`, analysisEngine.js lines 862-1377) -/

/-- Liveness of a tracked container: `running`, already `stopped` (a stop
call answers HTTP 304), or `broken` (a stop call throws some other error). -/
inductive ContainerState | running | stopped | broken
deriving DecidableEq

/-- The `activeContainers` registry (a `Map` keyed by job id, here an
association list). -/
structure DockerState where
  activeContainers : List (String × ContainerState)
deriving DecidableEq

/-- Outcome of `stopContainer`: the entry was absent (warn + return), the
container was stopped now, it was already stopped (304 treated as success),
or another stop error was logged by the outer catch (entry retained).  In
every case the function returns normally — no error escapes. -/
inductive StopOutcome | notFound | stoppedNow | wasAlreadyStopped | errorLogged
deriving DecidableEq

/-- `this.activeContainers.get(jobId)`. -/
def lookupContainer (st : DockerState) (jobId : String) : Option ContainerState :=
  (st.activeContainers.find? (fun p => p.1 == jobId)).map Prod.snd

/-- `this.activeContainers.delete(jobId)`. -/
def removeContainer (st : DockerState) (jobId : String) : DockerState :=
  ⟨st.activeContainers.filter (fun p => !(p.1 == jobId))⟩

/-- `DockerService.stopContainer` (lines 1268-1300): missing entry → warn
and return; `container.stop()` ok → delete entry; HTTP 304 ("already
stopped") → treated as success, delete entry; any other stop error →
rethrown into the outer catch, which only logs (the delete is skipped). -/
def stopContainer (st : DockerState) (jobId : String) : DockerState × StopOutcome :=
  match lookupContainer st jobId with
  | none => (st, .notFound)
  | some .running => (removeContainer st jobId, .stoppedNow)
  | some .stopped => (removeContainer st jobId, .wasAlreadyStopped)
  | some .broken => (st, .errorLogged)

/-- `DockerService.cleanup` (lines 1302-1311): delegates to `stopContainer`
inside a catch, so it likewise never throws. -/
def dockerCleanup (st : DockerState) (jobId : String) : DockerState × StopOutcome :=
  stopContainer st jobId

/-! ## Derived closed forms of the loop bodies (used by the proofs) -/

/-- The events of one batch-loop iteration of `analyzeCommitsPhase` (derived
closed form of `commitBatchStep`): the per-commit socket events of the slice,
then the `updateJobStatus` events of the batch progress update. -/
def batchStepEvents (replies : List AIResult) (n : ℕ) (i : ℕ) : List Event :=
  ((replies.drop i).take 5).flatMap (fun a => commitSocketEvents (attachCommit a)) ++
  [Event.statusSet .analyzing, Event.progressSet (batchProgress n i),
   Event.progressEv (batchProgress n i) .analyzing]

/-- The state change of one batch-loop iteration (derived closed form). -/
def batchStepState (replies : List AIResult) (n : ℕ) (st : JobState) (i : ℕ) : JobState :=
  { st with
    status := JobStatus.analyzing,
    progress := batchProgress n i,
    commits := st.commits ++ ((replies.drop i).take 5).map attachCommit,
    alerts := st.alerts ++
      (((replies.drop i).take 5).map attachCommit).flatMap commitAlerts }

/-! # Theorems -/

/-! ## Generic helpers -/

theorem filterMap_flatMap {α β γ : Type _} (f : α → Option β) (g : γ → List α)
    (l : List γ) :
    (l.flatMap g).filterMap f = l.flatMap fun x => (g x).filterMap f := by
  induction l with
  | nil => rfl
  | cons a t ih => simp [List.flatMap_cons, List.filterMap_append, ih]

theorem foldl_pair_indep {σ α : Type _} (f : σ → α → σ) (g : α → List Event) :
    ∀ (l : List α) (s : σ) (evs : List Event),
      l.foldl (fun acc x => (f acc.1 x, acc.2 ++ g x)) (s, evs) =
        (l.foldl f s, evs ++ l.flatMap g) := by
  intro l
  induction l with
  | nil => intro s evs; simp
  | cons a t ih =>
      intro s evs
      simp [List.foldl_cons, ih, List.flatMap_cons]

theorem round_le_round (x y : ℚ) (h : x ≤ y) : round x ≤ round y := by
  rw [round_eq, round_eq]
  exact Int.floor_le_floor (by linarith)

/-! ## Claim C9: confidence sanitization stays in the unit interval -/

theorem sanitize_num_branch (q : ℚ) :
    0 ≤ (if q > 1 then min (q / 100) 1 else max 0 (min q 1)) ∧
      (if q > 1 then min (q / 100) 1 else max 0 (min q 1)) ≤ 1 := by
  split_ifs with h
  · exact ⟨le_min (by linarith) zero_le_one, min_le_right _ _⟩
  · exact ⟨le_max_left _ _, max_le zero_le_one (min_le_right _ _)⟩

/-- Claim C9: for every confidence value supplied by an oracle verdict — a
number in [0,1], a number greater than 1, a numeric string, a percentage
string ending in a percent sign, or null/undefined — the sanitized
confidence, and hence the confidence stored on every attached commit or
dependency verdict, is a rational lying in the interval [0, 1]. -/
theorem sanitizeConfidence_in_unit_interval :
    (∀ v : ConfValue, 0 ≤ sanitizeConfidence v ∧ sanitizeConfidence v ≤ 1) ∧
    (∀ a : AIResult, 0 ≤ (attachCommit a).confidence ∧ (attachCommit a).confidence ≤ 1) ∧
    (∀ a : AIResult, 0 ≤ (attachDep a).confidence ∧ (attachDep a).confidence ≤ 1) := by
  have core : ∀ v : ConfValue, 0 ≤ sanitizeConfidence v ∧ sanitizeConfidence v ≤ 1 := by
    intro v
    cases v with
    | num q => simpa [sanitizeConfidence] using sanitize_num_branch q
    | numStr q => simpa [sanitizeConfidence] using sanitize_num_branch q
    | pctStr q =>
        simp only [sanitizeConfidence]
        exact ⟨le_min (le_max_right _ _) zero_le_one, min_le_right _ _⟩
    | pctStrNaN => norm_num [sanitizeConfidence]
    | nullv => norm_num [sanitizeConfidence]
    | undef => norm_num [sanitizeConfidence]
    | other => norm_num [sanitizeConfidence]
  exact ⟨core, fun a => core a.confidence, fun a => core a.confidence⟩

/-! ## Claim C1: the risk scoring function -/

theorem specLevel_eq_codeRiskLevel (s : ℤ) : specLevel s = codeRiskLevel s := by
  unfold specLevel codeRiskLevel
  split_ifs <;> first | rfl | (exfalso; omega)

theorem calculateRiskScore_fst_eq_specScore (cs : List ℚ) (ds : List RiskTier)
    (al : List Severity) : (calculateRiskScore cs ds al).1 = specScore cs ds al := by
  rcases eq_or_ne cs [] with hc | hc <;> rcases eq_or_ne ds [] with hd | hd <;>
    rcases eq_or_ne al [] with ha | ha <;>
  · simp only [calculateRiskScore, scoreAccum, specScore, specFactors, listMean, hc, hd, ha,
      List.length_pos, ne_eq]
    norm_num
    try simp
    try (congr 1; ring)

theorem calculateRiskScore_snd_eq (cs : List ℚ) (ds : List RiskTier) (al : List Severity) :
    (calculateRiskScore cs ds al).2 = codeRiskLevel (calculateRiskScore cs ds al).1 := rfl

theorem calcRiskScore_example88 :
    calculateRiskScore [(80 : ℚ)] [] [Severity.critical] = (88, RiskLevel.critical) := by
  norm_num [calculateRiskScore, scoreAccum, severityScores, codeRiskLevel, round_eq]

/-- Claim C1 counterexample: on one commit with riskScore 80, one critical
alert and no dependencies, the scoring function returns (88, critical) — the
claimed value (82, critical) is wrong. -/
theorem calculateRiskScore_example_not82 :
    calculateRiskScore [(80 : ℚ)] [] [Severity.critical] ≠ (82, RiskLevel.critical) ∧
    calculateRiskScore [(80 : ℚ)] [] [Severity.critical] = (88, RiskLevel.critical) := by
  refine ⟨?_, calcRiskScore_example88⟩
  rw [calcRiskScore_example88]
  simp

/-- Claim C1 (amended): the risk scoring function is the renormalized
weighted mean of the included factors with the stated mappings and
thresholds, empty inputs yield (0, low), and the worked example — one commit
with riskScore 80 plus one critical alert and no dependencies — yields
(88, critical) (not 82 as claimed: round(57 / 0.65) = 88). -/
theorem calculateRiskScore_matches_spec :
    (∀ (cs : List ℚ) (ds : List RiskTier) (al : List Severity),
        calculateRiskScore cs ds al = (specScore cs ds al, specLevel (specScore cs ds al))) ∧
    calculateRiskScore [(80 : ℚ)] [] [Severity.critical] = (88, RiskLevel.critical) ∧
    calculateRiskScore [] [] [] = (0, RiskLevel.low) := by
  refine ⟨fun cs ds al => ?_, calcRiskScore_example88, ?_⟩
  · have h1 := calculateRiskScore_fst_eq_specScore cs ds al
    refine Prod.ext h1 ?_
    rw [calculateRiskScore_snd_eq, h1, specLevel_eq_codeRiskLevel]
  · norm_num [calculateRiskScore, scoreAccum, codeRiskLevel]

/-! ## Claim C7: sandbox release is idempotent -/

theorem find_filter_self_none (l : List (String × ContainerState)) (j : String) :
    (l.filter (fun p => !(p.1 == j))).find? (fun p => p.1 == j) = none := by
  induction l with
  | nil => rfl
  | cons a t ih =>
      by_cases h : a.1 == j <;> simp [List.filter_cons, h, List.find?, ih]

theorem lookup_removeContainer (st : DockerState) (j : String) :
    lookupContainer (removeContainer st j) j = none := by
  unfold lookupContainer removeContainer
  rw [find_filter_self_none]
  rfl

/-- Claim C7: sandbox release is idempotent — a release on an
already-stopped container is treated as success, and a second release after
a successful release finds no entry, performs no state change and raises no
error (`stopContainer` returns normally in every case). -/
theorem stopContainer_idempotent (st : DockerState) (j : String) :
    (lookupContainer st j = some ContainerState.stopped →
      (stopContainer st j).2 = StopOutcome.wasAlreadyStopped) ∧
    ((stopContainer st j).2 = StopOutcome.stoppedNow ∨
        (stopContainer st j).2 = StopOutcome.wasAlreadyStopped →
      stopContainer (stopContainer st j).1 j = ((stopContainer st j).1, StopOutcome.notFound)) := by
  constructor
  · intro h
    simp [stopContainer, h]
  · intro h
    cases hl : lookupContainer st j with
    | none => simp [stopContainer, hl] at h
    | some c =>
        cases c with
        | running =>
            simp only [stopContainer, hl]
            simp [lookup_removeContainer]
        | stopped =>
            simp only [stopContainer, hl]
            simp [lookup_removeContainer]
        | broken => simp [stopContainer, hl] at h

/-- Claim C7 witness: on a registry holding one running container for
`job1`, the first release succeeds and the second is a no-op. -/
theorem stopContainer_idempotent_witness :
    stopContainer (stopContainer ⟨[("job1", ContainerState.running)]⟩ "job1").1 "job1" =
      ((stopContainer ⟨[("job1", ContainerState.running)]⟩ "job1").1, StopOutcome.notFound) :=
  (stopContainer_idempotent ⟨[("job1", ContainerState.running)]⟩ "job1").2
    (Or.inl (by simp [stopContainer, lookupContainer, List.find?]))

/-! ## Pipeline structural lemmas -/

theorem mem_of_mem_getLastOpt {α : Type _} {l : List α} {x : α} (h : x ∈ l.getLast?) :
    x ∈ l := by
  rcases List.mem_getLast?_eq_getLast h with ⟨hne, rfl⟩
  exact List.getLast_mem hne

theorem mem_of_mem_headOpt {α : Type _} {l : List α} {x : α} (h : x ∈ l.head?) : x ∈ l := by
  cases l with
  | nil => simp at h
  | cons a t => simp at h; simp [h]

theorem flatMap_nil_fun {α γ : Type _} (l : List γ) :
    (l.flatMap fun _ => ([] : List α)) = [] := by
  induction l <;> simp [*]

theorem commitsFold_state (batch : List AIResult) :
    ∀ st : JobState, batch.foldl (fun s a => (processCommit s a).1) st =
      { st with commits := st.commits ++ batch.map attachCommit,
                alerts := st.alerts ++ (batch.map attachCommit).flatMap commitAlerts } := by
  induction batch with
  | nil => intro st; simp
  | cons a t ih =>
      intro st
      rw [List.foldl_cons, ih]
      rcases st with ⟨s, p, cms, deps, als, rs, rl, bs, be⟩
      simp [processCommit, List.flatMap_cons, List.map_cons, List.append_assoc]

theorem processCommitsFold_spec (st : JobState) (batch : List AIResult) :
    processCommitsFold st batch =
      ({ st with commits := st.commits ++ batch.map attachCommit,
                 alerts := st.alerts ++ (batch.map attachCommit).flatMap commitAlerts },
       batch.flatMap fun a => commitSocketEvents (attachCommit a)) := by
  unfold processCommitsFold
  have hfun : (fun (acc : JobState × List Event) a =>
      let r := processCommit acc.1 a
      (r.1, acc.2 ++ r.2)) =
      (fun (acc : JobState × List Event) a =>
        ((fun s x => (processCommit s x).1) acc.1 a,
         acc.2 ++ (fun x => commitSocketEvents (attachCommit x)) a)) := rfl
  rw [hfun, foldl_pair_indep (fun s x => (processCommit s x).1)
    (fun x => commitSocketEvents (attachCommit x)) batch st [], commitsFold_state]
  simp

theorem commitBatchStep_eq (replies : List AIResult) (n : ℕ) :
    commitBatchStep replies n =
      fun acc i => (batchStepState replies n acc.1 i, acc.2 ++ batchStepEvents replies n i) := by
  funext acc i
  obtain ⟨st, evs⟩ := acc
  obtain ⟨s, p, cms, deps, als, rs, rl, bs, be⟩ := st
  simp only [commitBatchStep, batchStepState, batchStepEvents, processCommitsFold_spec,
    updateJobStatus]
  simp [List.append_assoc]

theorem analyzeCommitsPhase_eq (replies : List AIResult) (st : JobState) :
    analyzeCommitsPhase replies st =
      ((batchStarts replies.length).foldl (batchStepState replies replies.length) st,
       Event.logEv .info .analysis ::
         (batchStarts replies.length).flatMap (batchStepEvents replies replies.length)) := by
  unfold analyzeCommitsPhase
  rw [commitBatchStep_eq, foldl_pair_indep (batchStepState replies replies.length)
    (batchStepEvents replies replies.length)]
  simp

theorem depsFold_state (deps : List AIResult) :
    ∀ st : JobState, deps.foldl (fun s a => (processDep s a).1) st =
      { st with dependencies := st.dependencies ++ deps.map attachDep,
                alerts := st.alerts ++ (deps.map attachDep).flatMap depAlerts } := by
  induction deps with
  | nil => intro st; simp
  | cons a t ih =>
      intro st
      rw [List.foldl_cons, ih]
      rcases st with ⟨s, p, cms, dps, als, rs, rl, bs, be⟩
      simp [processDep, List.flatMap_cons, List.map_cons, List.append_assoc]

theorem analyzeDepsPhase_spec (deps : List AIResult) (st : JobState) :
    analyzeDepsPhase deps st =
      ({ st with dependencies := st.dependencies ++ deps.map attachDep,
                 alerts := st.alerts ++ (deps.map attachDep).flatMap depAlerts },
       Event.logEv .info .analysis :: deps.flatMap fun a => depSocketEvents (attachDep a)) := by
  unfold analyzeDepsPhase
  have hfun : (fun (acc : JobState × List Event) a =>
      let r := processDep acc.1 a
      (r.1, acc.2 ++ r.2)) =
      (fun (acc : JobState × List Event) a =>
        ((fun s x => (processDep s x).1) acc.1 a,
         acc.2 ++ (fun x => depSocketEvents (attachDep x)) a)) := rfl
  rw [hfun, foldl_pair_indep (fun s x => (processDep s x).1)
    (fun x => depSocketEvents (attachDep x)) deps st
    [Event.logEv .info .analysis], depsFold_state]
  simp

theorem commitSocketEvents_projs (c : AttachedCommit) :
    (commitSocketEvents c).filterMap statusProj = [] ∧
    (commitSocketEvents c).filterMap progressProj = [] ∧
    (commitSocketEvents c).filterMap doneProj = [] ∧
    ∀ e ∈ commitSocketEvents c, isPhaseEvent e = true := by
  unfold commitSocketEvents
  split_ifs <;>
    simp [statusProj, progressProj, doneProj, isPhaseEvent, List.filterMap_cons]

theorem depSocketEvents_projs (d : AttachedDep) :
    (depSocketEvents d).filterMap statusProj = [] ∧
    (depSocketEvents d).filterMap progressProj = [] ∧
    (depSocketEvents d).filterMap doneProj = [] ∧
    ∀ e ∈ depSocketEvents d, isPhaseEvent e = true := by
  unfold depSocketEvents
  split_ifs <;>
    simp [statusProj, progressProj, doneProj, isPhaseEvent, List.filterMap_cons]

theorem batchStepEvents_projs (replies : List AIResult) (n i : ℕ) :
    (batchStepEvents replies n i).filterMap statusProj = [JobStatus.analyzing] ∧
    (batchStepEvents replies n i).filterMap progressProj = [batchProgress n i] ∧
    (batchStepEvents replies n i).filterMap doneProj = [] ∧
    ∀ e ∈ batchStepEvents replies n i, isPhaseEvent e = true := by
  unfold batchStepEvents
  refine ⟨?_, ?_, ?_, ?_⟩
  · simp [List.filterMap_append, filterMap_flatMap, statusProj,
      (fun c => (commitSocketEvents_projs c).1), flatMap_nil_fun, List.filterMap_cons]
  · simp [List.filterMap_append, filterMap_flatMap, progressProj,
      (fun c => (commitSocketEvents_projs c).2.1), flatMap_nil_fun, List.filterMap_cons]
  · simp [List.filterMap_append, filterMap_flatMap, doneProj,
      (fun c => (commitSocketEvents_projs c).2.2.1), flatMap_nil_fun, List.filterMap_cons]
  · intro e he
    rcases List.mem_append.mp he with h | h
    · rcases List.mem_flatMap.mp h with ⟨a, _, hmem⟩
      exact (commitSocketEvents_projs _).2.2.2 e hmem
    · simp only [List.mem_cons, List.not_mem_nil, or_false] at h
      rcases h with rfl | rfl | rfl <;> rfl

theorem batchFoldl_fields (replies : List AIResult) (n : ℕ) (l : List ℕ) :
    ∀ st : JobState,
      (l.foldl (batchStepState replies n) st).commits =
          st.commits ++ l.flatMap (fun i => ((replies.drop i).take 5).map attachCommit) ∧
      (l.foldl (batchStepState replies n) st).alerts =
          st.alerts ++ l.flatMap (fun i =>
            (((replies.drop i).take 5).map attachCommit).flatMap commitAlerts) ∧
      (l.foldl (batchStepState replies n) st).dependencies = st.dependencies ∧
      (l.foldl (batchStepState replies n) st).riskScore = st.riskScore ∧
      (l.foldl (batchStepState replies n) st).riskLevel = st.riskLevel ∧
      (l.foldl (batchStepState replies n) st).buildSuccess = st.buildSuccess ∧
      (l.foldl (batchStepState replies n) st).buildErrors = st.buildErrors := by
  induction l with
  | nil => intro st; simp
  | cons i t ih =>
      intro st
      simp only [List.foldl_cons, List.flatMap_cons]
      obtain ⟨h1, h2, h3, h4, h5, h6, h7⟩ := ih (batchStepState replies n st i)
      refine ⟨?_, ?_, ?_, ?_, ?_, ?_, ?_⟩
      · rw [h1]; simp [batchStepState, List.append_assoc]
      · rw [h2]; simp [batchStepState, List.append_assoc]
      · rw [h3]; simp [batchStepState]
      · rw [h4]; simp [batchStepState]
      · rw [h5]; simp [batchStepState]
      · rw [h6]; simp [batchStepState]
      · rw [h7]; simp [batchStepState]

theorem flatMap_range_chunks {α : Type _} (K : ℕ) :
    ∀ l : List α, l.length ≤ 5 * K →
      (List.range K).flatMap (fun k => (l.drop (5 * k)).take 5) = l := by
  induction K with
  | zero =>
      intro l h
      simp at h
      simp [h]
  | succ K ih =>
      intro l h
      rw [List.range_succ_eq_map]
      simp only [List.flatMap_cons, Nat.mul_zero, List.drop_zero, List.flatMap_map]
      have hstep : ((List.range K).flatMap fun k => (l.drop (5 * (k + 1))).take 5) =
          (List.range K).flatMap fun k => ((l.drop 5).drop (5 * k)).take 5 := by
        congr 1
        funext k
        rw [List.drop_drop]
        congr 2
        omega
      have hlen : (l.drop 5).length ≤ 5 * K := by
        simp only [List.length_drop]
        omega
      calc l.take 5 ++ (List.range K).flatMap (fun k => (l.drop (5 * (k + 1))).take 5)
          = l.take 5 ++ (List.range K).flatMap (fun k => ((l.drop 5).drop (5 * k)).take 5) := by
            rw [hstep]
        _ = l.take 5 ++ l.drop 5 := by rw [ih (l.drop 5) hlen]
        _ = l := List.take_append_drop 5 l

theorem batchStarts_chunks (l : List AIResult) :
    (batchStarts l.length).flatMap (fun i => (l.drop i).take 5) = l := by
  unfold batchStarts
  rw [List.flatMap_map]
  exact flatMap_range_chunks _ l (by omega)

theorem batchStarts_chunks_map (l : List AIResult) :
    (batchStarts l.length).flatMap (fun i => ((l.drop i).take 5).map attachCommit) =
      l.map attachCommit := by
  calc (batchStarts l.length).flatMap (fun i => ((l.drop i).take 5).map attachCommit)
      = List.map attachCommit ((batchStarts l.length).flatMap fun i => (l.drop i).take 5) :=
        (List.map_flatMap _ _ _).symm
    _ = l.map attachCommit := by rw [batchStarts_chunks]

theorem batchStarts_chunks_alerts (l : List AIResult) :
    (batchStarts l.length).flatMap
        (fun i => (((l.drop i).take 5).map attachCommit).flatMap commitAlerts) =
      (l.map attachCommit).flatMap commitAlerts := by
  simp only [List.flatMap_map]
  rw [← List.flatMap_assoc, batchStarts_chunks]

theorem flatMap_singleton_fun {α β : Type _} (l : List α) (f : α → β) :
    (l.flatMap fun x => [f x]) = l.map f := by
  induction l <;> simp [*]

theorem analyzeCommitsPhase_state (replies : List AIResult) (st : JobState) :
    (analyzeCommitsPhase replies st).1.commits = st.commits ++ replies.map attachCommit ∧
    (analyzeCommitsPhase replies st).1.alerts =
        st.alerts ++ (replies.map attachCommit).flatMap commitAlerts ∧
    (analyzeCommitsPhase replies st).1.dependencies = st.dependencies ∧
    (analyzeCommitsPhase replies st).1.riskScore = st.riskScore ∧
    (analyzeCommitsPhase replies st).1.riskLevel = st.riskLevel ∧
    (analyzeCommitsPhase replies st).1.buildSuccess = st.buildSuccess ∧
    (analyzeCommitsPhase replies st).1.buildErrors = st.buildErrors := by
  rw [analyzeCommitsPhase_eq]
  obtain ⟨h1, h2, h3, h4, h5, h6, h7⟩ :=
    batchFoldl_fields replies replies.length (batchStarts replies.length) st
  refine ⟨?_, ?_, h3, h4, h5, h6, h7⟩
  · rw [h1, batchStarts_chunks_map]
  · rw [h2, batchStarts_chunks_alerts]

theorem analyzeCommitsPhase_events (replies : List AIResult) (st : JobState) :
    (analyzeCommitsPhase replies st).2.filterMap statusProj =
        (batchStarts replies.length).map (fun _ => JobStatus.analyzing) ∧
    (analyzeCommitsPhase replies st).2.filterMap progressProj =
        (batchStarts replies.length).map (batchProgress replies.length) ∧
    (analyzeCommitsPhase replies st).2.filterMap doneProj = [] ∧
    ∀ e ∈ (analyzeCommitsPhase replies st).2, isPhaseEvent e = true := by
  rw [analyzeCommitsPhase_eq]
  refine ⟨?_, ?_, ?_, ?_⟩
  · simp only [List.filterMap_cons, statusProj, filterMap_flatMap,
      (fun i => (batchStepEvents_projs replies replies.length i).1), flatMap_singleton_fun]
  · simp only [List.filterMap_cons, progressProj, filterMap_flatMap,
      (fun i => (batchStepEvents_projs replies replies.length i).2.1), flatMap_singleton_fun]
  · simp only [List.filterMap_cons, doneProj, filterMap_flatMap,
      (fun i => (batchStepEvents_projs replies replies.length i).2.2.1), flatMap_nil_fun]
  · intro e he
    simp only [List.mem_cons] at he
    rcases he with rfl | he
    · rfl
    · rcases List.mem_flatMap.mp he with ⟨i, _, hmem⟩
      exact (batchStepEvents_projs replies replies.length i).2.2.2 e hmem

theorem analyzeDepsPhase_events (deps : List AIResult) (st : JobState) :
    (analyzeDepsPhase deps st).2.filterMap statusProj = [] ∧
    (analyzeDepsPhase deps st).2.filterMap progressProj = [] ∧
    (analyzeDepsPhase deps st).2.filterMap doneProj = [] ∧
    ∀ e ∈ (analyzeDepsPhase deps st).2, isPhaseEvent e = true := by
  rw [analyzeDepsPhase_spec]
  refine ⟨?_, ?_, ?_, ?_⟩
  · simp only [List.filterMap_cons, statusProj, filterMap_flatMap,
      (fun a => (depSocketEvents_projs (attachDep a)).1), flatMap_nil_fun]
  · simp only [List.filterMap_cons, progressProj, filterMap_flatMap,
      (fun a => (depSocketEvents_projs (attachDep a)).2.1), flatMap_nil_fun]
  · simp only [List.filterMap_cons, doneProj, filterMap_flatMap,
      (fun a => (depSocketEvents_projs (attachDep a)).2.2.1), flatMap_nil_fun]
  · intro e he
    simp only [List.mem_cons] at he
    rcases he with rfl | he
    · rfl
    · rcases List.mem_flatMap.mp he with ⟨a, _, hmem⟩
      exact (depSocketEvents_projs _).2.2.2 e hmem

/-! ## Run-level shape lemmas -/

theorem runSuccess_fields (replies dv : List AIResult) (sf : Bool) :
    (runAnalysis ⟨Except.ok (), Except.ok replies, dv, sf⟩).1.status = JobStatus.completed ∧
    (runAnalysis ⟨Except.ok (), Except.ok replies, dv, sf⟩).1.commits =
      replies.map attachCommit ∧
    (runAnalysis ⟨Except.ok (), Except.ok replies, dv, sf⟩).1.dependencies =
      dv.map attachDep ∧
    (runAnalysis ⟨Except.ok (), Except.ok replies, dv, sf⟩).1.alerts =
      (replies.map attachCommit).flatMap commitAlerts ++
        (dv.map attachDep).flatMap depAlerts := by
  cases sf <;>
    simp [runAnalysis, completeRun, finalAssessmentPhase, runAIAnalysisPhase,
      scoringPhase, updateJobStatus, initialJob,
      (fun st => (analyzeCommitsPhase_state replies st).1),
      (fun st => (analyzeCommitsPhase_state replies st).2.1),
      (fun st => (analyzeCommitsPhase_state replies st).2.2.1),
      (analyzeDepsPhase_spec dv)]

theorem runSuccess_scoring_fails (replies dv : List AIResult) :
    (runAnalysis ⟨Except.ok (), Except.ok replies, dv, true⟩).1.riskScore = some 50 ∧
    (runAnalysis ⟨Except.ok (), Except.ok replies, dv, true⟩).1.riskLevel =
      some RiskLevel.medium := by
  simp [runAnalysis, completeRun, finalAssessmentPhase, runAIAnalysisPhase,
    scoringPhase, updateJobStatus]

theorem runSuccess_scoring_ok (replies dv : List AIResult) :
    (runAnalysis ⟨Except.ok (), Except.ok replies, dv, false⟩).1.riskScore =
      some (calculateRiskScore ((replies.map attachCommit).map fun c => c.riskScore)
        ((dv.map attachDep).map fun d => d.riskLevel)
        ((((replies.map attachCommit).flatMap commitAlerts) ++
            ((dv.map attachDep).flatMap depAlerts)).map fun a => a.severity)).1 ∧
    (runAnalysis ⟨Except.ok (), Except.ok replies, dv, false⟩).1.riskLevel =
      some (calculateRiskScore ((replies.map attachCommit).map fun c => c.riskScore)
        ((dv.map attachDep).map fun d => d.riskLevel)
        ((((replies.map attachCommit).flatMap commitAlerts) ++
            ((dv.map attachDep).flatMap depAlerts)).map fun a => a.severity)).2 := by
  simp [runAnalysis, completeRun, finalAssessmentPhase, runAIAnalysisPhase,
    scoringPhase, updateJobStatus, initialJob,
    (fun st => (analyzeCommitsPhase_state replies st).1),
    (fun st => (analyzeCommitsPhase_state replies st).2.1),
    (fun st => (analyzeCommitsPhase_state replies st).2.2.1),
    (analyzeDepsPhase_spec dv)]

theorem runSuccess_doneEvents (replies dv : List AIResult) (sf : Bool) :
    doneEvents ⟨Except.ok (), Except.ok replies, dv, sf⟩ =
      [successDone (runAnalysis ⟨Except.ok (), Except.ok replies, dv, sf⟩).1] := by
  cases sf <;>
    simp [doneEvents, runAnalysis, completeRun, finalAssessmentPhase, runAIAnalysisPhase,
      scoringPhase, updateJobStatus, doneProj, List.filterMap_append, List.filterMap_cons,
      (fun st => (analyzeCommitsPhase_events replies st).2.2.1),
      (fun st => (analyzeDepsPhase_events dv st).2.2.1)]

theorem runSuccess_statusProj (replies dv : List AIResult) (sf : Bool) :
    (runAnalysis ⟨Except.ok (), Except.ok replies, dv, sf⟩).2.filterMap statusProj =
      JobStatus.cloning :: JobStatus.cloning ::
        ((batchStarts replies.length).map (fun _ => JobStatus.analyzing) ++
          [JobStatus.analyzing, JobStatus.analyzing, JobStatus.analyzing,
           JobStatus.analyzing, JobStatus.completed]) := by
  cases sf <;>
    simp [runAnalysis, completeRun, finalAssessmentPhase, runAIAnalysisPhase,
      scoringPhase, updateJobStatus, statusProj, List.filterMap_append, List.filterMap_cons,
      (fun st => (analyzeCommitsPhase_events replies st).1),
      (fun st => (analyzeDepsPhase_events dv st).1)]

theorem runSuccess_progressProj (replies dv : List AIResult) (sf : Bool) :
    (runAnalysis ⟨Except.ok (), Except.ok replies, dv, sf⟩).2.filterMap progressProj =
      (5 : ℚ) :: (15 : ℚ) ::
        ((batchStarts replies.length).map (batchProgress replies.length) ++
          [(40 : ℚ), 60, 80, 90, 100]) := by
  cases sf <;>
    simp [runAnalysis, completeRun, finalAssessmentPhase, runAIAnalysisPhase,
      scoringPhase, updateJobStatus, progressProj, List.filterMap_append, List.filterMap_cons,
      (fun st => (analyzeCommitsPhase_events replies st).2.1),
      (fun st => (analyzeDepsPhase_events dv st).2.1)]

/-! ## Claim C2: one failure done event -/

/-- Claim C2: whenever a job's background run fails at a phase, the job
transitions to status failed and exactly one terminal `done` event is
emitted, carrying riskScore 0, riskLevel "unknown" and the triggering error
message. -/
theorem runAnalysis_failure_single_done (env : RunEnv) (m : String)
    (h : failureMsg env = some m) :
    (runAnalysis env).1.status = JobStatus.failed ∧
    doneEvents env = [failureDone m] := by
  obtain ⟨co, cl, dv, sf⟩ := env
  cases co with
  | error msg =>
      simp only [failureMsg, Option.some.injEq] at h
      subst h
      constructor
      · simp [runAnalysis, updateJobStatus, handleAnalysisError]
      · simp [doneEvents, runAnalysis, updateJobStatus, handleAnalysisError, doneProj,
          List.filterMap_append, List.filterMap_cons]
  | ok u =>
      cases cl with
      | error msg =>
          simp only [failureMsg, Option.some.injEq] at h
          subst h
          constructor
          · simp [runAnalysis, updateJobStatus, handleAnalysisError]
          · simp [doneEvents, runAnalysis, updateJobStatus, handleAnalysisError, doneProj,
              List.filterMap_append, List.filterMap_cons]
      | ok replies => simp [failureMsg] at h

/-- Claim C2 witness: a run whose clone fails with message "boom" ends failed
and emits exactly the one error done event. -/
theorem runAnalysis_failure_single_done_witness :
    (runAnalysis ⟨Except.error "boom", Except.ok [], [], false⟩).1.status =
        JobStatus.failed ∧
    doneEvents ⟨Except.error "boom", Except.ok [], [], false⟩ = [failureDone "boom"] :=
  runAnalysis_failure_single_done ⟨Except.error "boom", Except.ok [], [], false⟩ "boom" rfl

/-! ## Claim C3: terminal state and teardown on every exit path -/

theorem ne_docker_of_phase {e : Event} (h : isPhaseEvent e = true) :
    e ≠ Event.dockerTeardown := by
  rintro rfl
  simp [isPhaseEvent] at h

theorem runAnalysis_exit_shape (env : RunEnv) :
    isTerminal (runAnalysis env).1.status = true ∧
    Event.ghCleanup ∈ (runAnalysis env).2 ∧
    Event.dockerTeardown ∉ (runAnalysis env).2 := by
  obtain ⟨co, cl, dv, sf⟩ := env
  cases co with
  | error msg =>
      refine ⟨?_, ?_, ?_⟩ <;>
        simp [runAnalysis, updateJobStatus, handleAnalysisError, isTerminal]
  | ok u =>
      cases cl with
      | error msg =>
          refine ⟨?_, ?_, ?_⟩ <;>
            simp [runAnalysis, updateJobStatus, handleAnalysisError, isTerminal]
      | ok replies =>
          refine ⟨?_, ?_, ?_⟩
          · cases sf <;> simp [runAnalysis, completeRun, isTerminal]
          · cases sf <;>
              simp [runAnalysis, completeRun, finalAssessmentPhase, runAIAnalysisPhase,
                scoringPhase, updateJobStatus]
          · intro hmem
            cases sf <;>
              simp only [runAnalysis, completeRun, finalAssessmentPhase, runAIAnalysisPhase,
                scoringPhase, updateJobStatus, List.mem_append, List.mem_cons,
                List.not_mem_nil, or_false, if_true, if_false, Bool.false_eq_true,
                ite_false, ite_true, reduceCtorEq, false_or] at hmem <;>
              rcases hmem with h | h <;>
              first
                | exact ne_docker_of_phase
                    ((analyzeCommitsPhase_events replies _).2.2.2 _ h) rfl
                | exact ne_docker_of_phase
                    ((analyzeDepsPhase_events dv _).2.2.2 _ h) rfl

/-- Claim C3 (amended): every background run, success or failure, ends in a
terminal status and invokes the source fetcher's workspace cleanup
(`githubService.cleanup`) on that exit path; the Sandbox Manager's teardown
(`DockerService.cleanup` / `stopContainer`) is never invoked by the
pipeline. -/
theorem runAnalysis_terminal_and_cleanup : ∀ env : RunEnv,
    isTerminal (runAnalysis env).1.status = true ∧
    Event.ghCleanup ∈ (runAnalysis env).2 ∧
    Event.dockerTeardown ∉ (runAnalysis env).2 :=
  runAnalysis_exit_shape

/-- Claim C3 counterexample: a concrete successful run reaches `completed`
and performs the workspace cleanup, yet never invokes the Sandbox Manager's
teardown — refuting the claim that the sandbox/containerized execution
context is released on that exit path. -/
theorem runAnalysis_no_sandbox_teardown_example :
    (runAnalysis ⟨Except.ok (), Except.ok [], [], false⟩).1.status =
        JobStatus.completed ∧
    Event.ghCleanup ∈ (runAnalysis ⟨Except.ok (), Except.ok [], [], false⟩).2 ∧
    Event.dockerTeardown ∉ (runAnalysis ⟨Except.ok (), Except.ok [], [], false⟩).2 :=
  ⟨(runSuccess_fields [] [] false).1, (runAnalysis_exit_shape _).2.1,
   (runAnalysis_exit_shape _).2.2⟩

/-! ## Claim C4: the status state machine -/

theorem chain_analyzing_run :
    ∀ l : List JobStatus, (∀ x ∈ l, x = JobStatus.analyzing) →
      List.Chain' (fun a b => allowedMove a b = true)
        (JobStatus.analyzing :: (l ++ [JobStatus.analyzing, JobStatus.analyzing,
          JobStatus.analyzing, JobStatus.analyzing, JobStatus.completed])) := by
  intro l
  induction l with
  | nil => intro _; simp [List.chain'_cons, allowedMove, isTerminal]
  | cons x t ih =>
      intro h
      have hx : x = JobStatus.analyzing := h x (by simp)
      subst hx
      simp only [List.cons_append, List.chain'_cons]
      exact ⟨rfl, ih fun y hy => h y (by simp [hy])⟩

theorem chain_status_trace (l : List JobStatus)
    (h : ∀ x ∈ l, x = JobStatus.analyzing) :
    List.Chain' (fun a b => allowedMove a b = true)
      (JobStatus.pending :: JobStatus.cloning :: JobStatus.cloning ::
        (l ++ [JobStatus.analyzing, JobStatus.analyzing, JobStatus.analyzing,
         JobStatus.analyzing, JobStatus.completed])) := by
  cases l with
  | nil => simp [List.chain'_cons, allowedMove, isTerminal]
  | cons x t =>
      have hx : x = JobStatus.analyzing := h x (by simp)
      subst hx
      simp only [List.cons_append, List.chain'_cons]
      refine ⟨rfl, rfl, rfl, ?_⟩
      exact chain_analyzing_run t fun y hy => h y (by simp [hy])

/-- Claim C4: over every run, the job status only moves along the directed
edges pending → cloning → analyzing → completed, plus transitions from a
non-terminal state to failed (staying put allowed); in particular no move
from a terminal state back to a non-terminal one ever occurs. -/
theorem runAnalysis_status_machine (env : RunEnv) :
    List.Chain' (fun a b => allowedMove a b = true) (statusTrace env) := by
  obtain ⟨co, cl, dv, sf⟩ := env
  cases co with
  | error msg =>
      simp [statusTrace, runAnalysis, updateJobStatus, handleAnalysisError, statusProj,
        List.filterMap_append, List.filterMap_cons, List.chain'_cons, allowedMove,
        isTerminal]
  | ok u =>
      cases cl with
      | error msg =>
          simp [statusTrace, runAnalysis, updateJobStatus, handleAnalysisError, statusProj,
            List.filterMap_append, List.filterMap_cons, List.chain'_cons, allowedMove,
            isTerminal]
      | ok replies =>
          unfold statusTrace
          rw [runSuccess_statusProj replies dv sf]
          exact chain_status_trace _ fun x hx => by
            rcases List.mem_map.mp hx with ⟨i, _, rfl⟩; rfl

/-! ## Claim C6: progress is monotonically non-decreasing -/

theorem batchStarts_lt (n i : ℕ) (h : i ∈ batchStarts n) : i < n := by
  unfold batchStarts at h
  rcases List.mem_map.mp h with ⟨k, hk, rfl⟩
  have := List.mem_range.mp hk
  omega

theorem batchProgress_ge (n i : ℕ) : 15 ≤ batchProgress n i := by
  unfold batchProgress
  have h0 : (0 : ℚ) ≤ (i : ℚ) / (n : ℚ) * 25 := by positivity
  have h1 := round_le_round 0 _ h0
  rw [round_zero] at h1
  have h2 : (0 : ℚ) ≤ ((round ((i : ℚ) / (n : ℚ) * 25) : ℤ) : ℚ) := by exact_mod_cast h1
  linarith

theorem batchProgress_le (n i : ℕ) (h : i < n) : batchProgress n i ≤ 40 := by
  unfold batchProgress
  have hn : (0 : ℚ) < (n : ℚ) := by
    have : 0 < n := by omega
    exact_mod_cast this
  have hle : (i : ℚ) / (n : ℚ) * 25 ≤ 25 := by
    rw [div_mul_eq_mul_div, div_le_iff hn]
    have hin : (i : ℚ) ≤ (n : ℚ) := by exact_mod_cast le_of_lt h
    nlinarith
  have h25 : round ((25 : ℚ)) = 25 := by norm_num [round_eq]
  have h2 : round ((i : ℚ) / (n : ℚ) * 25) ≤ 25 := by
    have := round_le_round _ _ hle
    rwa [h25] at this
  have h3 : ((round ((i : ℚ) / (n : ℚ) * 25) : ℤ) : ℚ) ≤ 25 := by exact_mod_cast h2
  linarith

theorem batchProgress_mono (n : ℕ) {i j : ℕ} (hij : i ≤ j) :
    batchProgress n i ≤ batchProgress n j := by
  unfold batchProgress
  have hdiv : (i : ℚ) / (n : ℚ) * 25 ≤ (j : ℚ) / (n : ℚ) * 25 := by
    rcases Nat.eq_zero_or_pos n with hn | hn
    · simp [hn]
    · have hn' : (0 : ℚ) < (n : ℚ) := by exact_mod_cast hn
      have hm : (i : ℚ) ≤ (j : ℚ) := by exact_mod_cast hij
      gcongr
  have hr := round_le_round _ _ hdiv
  have hc : ((round ((i : ℚ) / (n : ℚ) * 25) : ℤ) : ℚ) ≤
      ((round ((j : ℚ) / (n : ℚ) * 25) : ℤ) : ℚ) := by exact_mod_cast hr
  linarith

theorem chain_batchProgress (n : ℕ) :
    List.Chain' (fun a b : ℚ => a ≤ b) ((batchStarts n).map (batchProgress n)) := by
  rw [List.chain'_map]
  unfold batchStarts
  rw [List.chain'_map]
  cases (n + 4) / 5 with
  | zero => simp
  | succ K =>
      refine (List.chain'_range_succ _ K).mpr fun m _ => ?_
      exact batchProgress_mono n (Nat.mul_le_mul_left 5 (Nat.le_succ m))

theorem chain_progress_trace (n : ℕ) :
    List.Chain' (fun a b : ℚ => a ≤ b)
      ((0 : ℚ) :: (5 : ℚ) :: (15 : ℚ) ::
        ((batchStarts n).map (batchProgress n) ++ [(40 : ℚ), 60, 80, 90, 100])) := by
  have hmem : ∀ p ∈ (batchStarts n).map (batchProgress n), 15 ≤ p ∧ p ≤ 40 := by
    intro p hp
    rcases List.mem_map.mp hp with ⟨i, hi, rfl⟩
    exact ⟨batchProgress_ge n i, batchProgress_le n i (batchStarts_lt n i hi)⟩
  rw [List.chain'_cons, List.chain'_cons]
  refine ⟨by norm_num, by norm_num, ?_⟩
  have hsplit : (15 : ℚ) :: ((batchStarts n).map (batchProgress n) ++
      [(40 : ℚ), 60, 80, 90, 100]) =
      ((15 : ℚ) :: (batchStarts n).map (batchProgress n)) ++ [(40 : ℚ), 60, 80, 90, 100] := by
    simp
  rw [hsplit, List.chain'_append]
  refine ⟨?_, by norm_num [List.chain'_cons], ?_⟩
  · rw [List.chain'_cons']
    exact ⟨fun y hy => (hmem y (mem_of_mem_headOpt hy)).1, chain_batchProgress n⟩
  · intro x hx y hy
    have hy' : (40 : ℚ) = y := by simpa using hy
    rw [← hy']
    have hx' : x ∈ (15 : ℚ) :: (batchStarts n).map (batchProgress n) :=
      mem_of_mem_getLastOpt hx
    rcases List.mem_cons.mp hx' with rfl | hxm
    · norm_num
    · exact (hmem x hxm).2

/-- Claim C6: for every run, the successive values of `job.progress` are
monotonically non-decreasing, from the 0 at creation through the per-batch
updates of commit analysis up to the terminal state. -/
theorem runAnalysis_progress_monotone (env : RunEnv) :
    List.Chain' (fun a b : ℚ => a ≤ b) (progressTrace env) := by
  obtain ⟨co, cl, dv, sf⟩ := env
  cases co with
  | error msg =>
      norm_num [progressTrace, runAnalysis, updateJobStatus, handleAnalysisError,
        progressProj, List.filterMap_append, List.filterMap_cons, List.chain'_cons]
  | ok u =>
      cases cl with
      | error msg =>
          norm_num [progressTrace, runAnalysis, updateJobStatus, handleAnalysisError,
            progressProj, List.filterMap_append, List.filterMap_cons, List.chain'_cons]
      | ok replies =>
          unfold progressTrace
          rw [runSuccess_progressProj replies dv sf]
          exact chain_progress_trace replies.length

/-! ## Claim C8: a scoring error never fails the job -/

/-- Claim C8: if an internal error occurs during risk scoring, the engine
assigns the safe default score 50 and level medium, emits the degradation
error log, and the pipeline still runs to `completed` — scoring never fails
the job. -/
theorem scoring_error_never_fails_job (env : RunEnv) (replies : List AIResult)
    (h1 : env.cloneOutcome = Except.ok ()) (h2 : env.commitListing = Except.ok replies)
    (h3 : env.scoringFails = true) :
    (runAnalysis env).1.status = JobStatus.completed ∧
    (runAnalysis env).1.riskScore = some 50 ∧
    (runAnalysis env).1.riskLevel = some RiskLevel.medium ∧
    Event.logEv LogLevel.error LogSource.analysis ∈ (runAnalysis env).2 := by
  obtain ⟨co, cl, dv, sf⟩ := env
  simp only at h1 h2 h3
  subst h1
  subst h2
  subst h3
  refine ⟨(runSuccess_fields replies dv true).1, (runSuccess_scoring_fails replies dv).1,
    (runSuccess_scoring_fails replies dv).2, ?_⟩
  simp [runAnalysis, completeRun, finalAssessmentPhase, runAIAnalysisPhase, scoringPhase,
    updateJobStatus]

/-- Claim C8 witness: a run with an empty repository and a scoring error
still completes with the default (50, medium). -/
theorem scoring_error_never_fails_job_witness :
    (runAnalysis ⟨Except.ok (), Except.ok [], [], true⟩).1.status = JobStatus.completed ∧
    (runAnalysis ⟨Except.ok (), Except.ok [], [], true⟩).1.riskScore = some 50 ∧
    (runAnalysis ⟨Except.ok (), Except.ok [], [], true⟩).1.riskLevel =
      some RiskLevel.medium ∧
    Event.logEv LogLevel.error LogSource.analysis ∈
      (runAnalysis ⟨Except.ok (), Except.ok [], [], true⟩).2 :=
  scoring_error_never_fails_job ⟨Except.ok (), Except.ok [], [], true⟩ [] rfl rfl rfl

/-! ## Claim C10: commit alerts and the commitIssues count -/

theorem commitAlert_rule (c : AttachedCommit) :
    (commitAlerts c ≠ [] ↔ c.riskScore > 70) ∧
    ∀ al ∈ commitAlerts c,
      al.atype = AlertType.commit ∧
      (al.severity = Severity.critical ↔ c.riskScore > 90) ∧
      (al.severity = Severity.high ↔ ¬ c.riskScore > 90) := by
  unfold commitAlerts commitSeverity
  by_cases h70 : c.riskScore > 70
  · rw [if_pos h70]
    refine ⟨by simpa using h70, ?_⟩
    intro al hal
    by_cases h90 : c.riskScore > 90
    · rw [if_pos h90] at hal
      simp only [List.mem_cons, List.not_mem_nil, or_false] at hal
      rcases hal with rfl | rfl <;> simp [h90]
    · rw [if_neg h90] at hal
      simp only [List.mem_cons, List.not_mem_nil, or_false] at hal
      rcases hal with rfl | rfl <;> simp [h90]
  · rw [if_neg h70]
    exact ⟨by simpa using h70, by simp⟩

/-- Claim C10: during commit analysis an alert is appended to the job for a
commit iff its classified riskScore exceeds 70, with severity critical
exactly when the riskScore exceeds 90 and high otherwise; and the success
done event's commitIssues equals the number of commits with riskScore above
70. -/
theorem commit_alert_iff_and_count (env : RunEnv) (replies : List AIResult)
    (h1 : env.cloneOutcome = Except.ok ()) (h2 : env.commitListing = Except.ok replies) :
    (∀ c : AttachedCommit,
        (commitAlerts c ≠ [] ↔ c.riskScore > 70) ∧
        ∀ al ∈ commitAlerts c,
          al.atype = AlertType.commit ∧
          (al.severity = Severity.critical ↔ c.riskScore > 90) ∧
          (al.severity = Severity.high ↔ ¬ c.riskScore > 90)) ∧
    (runAnalysis env).1.commits = replies.map attachCommit ∧
    (∀ st : JobState, (analyzeCommitsPhase replies st).1.alerts =
        st.alerts ++ (replies.map attachCommit).flatMap commitAlerts) ∧
    doneEvents env = [successDone (runAnalysis env).1] ∧
    (successDone (runAnalysis env).1).commitIssues =
      ((replies.map attachCommit).filter fun c => c.riskScore > 70).length := by
  obtain ⟨co, cl, dv, sf⟩ := env
  simp only at h1 h2
  subst h1
  subst h2
  refine ⟨commitAlert_rule, (runSuccess_fields replies dv sf).2.1,
    fun st => (analyzeCommitsPhase_state replies st).2.1,
    runSuccess_doneEvents replies dv sf, ?_⟩
  unfold successDone
  rw [(runSuccess_fields replies dv sf).2.1]

/-- Claim C10 witness: one commit verdict with riskScore 80 produces the
alerts and a commitIssues count of 1. -/
theorem commit_alert_iff_and_count_witness :
    (successDone (runAnalysis ⟨Except.ok (), Except.ok [{ riskScore := some 80 }], [],
        false⟩).1).commitIssues =
      (([{ riskScore := some 80 }].map attachCommit).filter
        fun c => c.riskScore > 70).length :=
  (commit_alert_iff_and_count ⟨Except.ok (), Except.ok [{ riskScore := some 80 }], [],
    false⟩ [{ riskScore := some 80 }] rfl rfl).2.2.2.2

/-! ## Claim C5: the oracle-unavailable degradation path -/

theorem hasJsonBraces_fallback : hasJsonBraces fallbackResponseText = false := by
  rfl

theorem analyzeCommit_unavailable (jsonParse : String → Option AIResult) :
    analyzeCommit jsonParse OracleOutcome.unavailable =
      parseErrorNoJson fallbackResponseText ∧
    analyzeDependency jsonParse OracleOutcome.unavailable =
      parseErrorNoJson fallbackResponseText := by
  constructor <;>
    simp [analyzeCommit, analyzeDependency, parseAIResponse, generateResponse,
      hasJsonBraces_fallback]

theorem attachCommit_parseError (r : String) :
    attachCommit (parseErrorNoJson r) =
      { riskScore := 0, threats := [], confidence := 0, summary := none } := by
  simp [attachCommit, parseErrorNoJson, jsNumOrZero, sanitizeConfidence]

theorem attachDep_parseError (r : String) :
    attachDep (parseErrorNoJson r) =
      { riskLevel := RiskTier.safe, vulnerabilities := [],
        typosquatting := ⟨false, [], ConfValue.num 0⟩, confidence := 0,
        summary := none } := by
  simp [attachDep, parseErrorNoJson, sanitizeConfidence]

/-- Claim C5 counterexample: when the oracle is unavailable, the adapter does
not attach the fixed fallback verdict — it returns the parse-error object,
so the engine stores riskScore 0 and confidence 0, not the fallback's fixed
score 25 and confidence 0.1; the fallback object itself (were it reachable)
also carries a non-empty threat list rather than the claimed empty one. -/
theorem oracle_unavailable_not_fallback :
    (attachCommit (analyzeCommit (fun _ => none) OracleOutcome.unavailable)).confidence
        = 0 ∧
    (attachCommit (analyzeCommit (fun _ => none) OracleOutcome.unavailable)).riskScore
        = 0 ∧
    analyzeCommit (fun _ => none) OracleOutcome.unavailable ≠ getFallbackCommitAnalysis ∧
    sanitizeConfidence getFallbackCommitAnalysis.confidence = (0.1 : ℚ) ∧
    (0 : ℚ) ≠ (0.1 : ℚ) ∧
    getFallbackCommitAnalysis.threats = some ["AI analysis unavailable"] := by
  have ha := (analyzeCommit_unavailable (fun _ => none)).1
  refine ⟨?_, ?_, ?_, ?_, by norm_num, rfl⟩
  · rw [ha, attachCommit_parseError]
  · rw [ha, attachCommit_parseError]
  · rw [ha]
    intro h
    have := congrArg AIResult.riskScore h
    simp [parseErrorNoJson, getFallbackCommitAnalysis] at this
  · norm_num [getFallbackCommitAnalysis, sanitizeConfidence]

theorem flatMap_replicate_nil {α β : Type _} (k : ℕ) (c : α) {f : α → List β}
    (h : f c = []) : (List.replicate k c).flatMap f = [] := by
  induction k with
  | zero => rfl
  | succ n ih => simp [List.replicate_succ, List.flatMap_cons, h, ih]

theorem commitAlerts_parseError :
    commitAlerts (attachCommit (parseErrorNoJson fallbackResponseText)) = [] := by
  rw [attachCommit_parseError]
  simp [commitAlerts]

theorem depAlerts_parseError :
    depAlerts (attachDep (parseErrorNoJson fallbackResponseText)) = [] := by
  rw [attachDep_parseError]
  simp [depAlerts]

theorem calc_zero_inputs (k m : ℕ) :
    calculateRiskScore (List.replicate k (0 : ℚ)) (List.replicate m RiskTier.safe) [] =
      (0, RiskLevel.low) := by
  have hs : (List.replicate k (0 : ℚ)).sum = 0 := by simp
  have hd : ((List.replicate m RiskTier.safe).map riskLevelScores).sum = 0 := by
    simp [List.map_replicate, riskLevelScores]
  have h1 : (calculateRiskScore (List.replicate k (0 : ℚ))
      (List.replicate m RiskTier.safe) []).1 = 0 := by
    unfold calculateRiskScore scoreAccum
    simp only [hs, hd, List.length_replicate, List.length_nil, List.map_nil, List.sum_nil]
    split_ifs <;> norm_num [round_eq]
  have h2 := calculateRiskScore_snd_eq (List.replicate k (0 : ℚ))
    (List.replicate m RiskTier.safe) []
  refine Prod.ext h1 ?_
  rw [h2, h1]
  norm_num [codeRiskLevel]

/-- Claim C5 (amended): when the oracle is unavailable the adapter returns
the parse-error object, not the fixed fallback verdict (itself carrying
riskScore 25, a non-empty threat list and confidence 0.1, but unreachable on
this path); the engine then attaches riskScore 0 / tier safe and confidence
0 to every record, and a job whose every oracle call degrades this way still
reaches `completed` with the valid pair (0, low). -/
theorem oracle_unavailable_job_completes (jsonParse : String → Option AIResult)
    (k m : ℕ) :
    (runAnalysis ⟨Except.ok (),
        Except.ok (List.replicate k (analyzeCommit jsonParse OracleOutcome.unavailable)),
        List.replicate m (analyzeDependency jsonParse OracleOutcome.unavailable),
        false⟩).1.status = JobStatus.completed ∧
    (runAnalysis ⟨Except.ok (),
        Except.ok (List.replicate k (analyzeCommit jsonParse OracleOutcome.unavailable)),
        List.replicate m (analyzeDependency jsonParse OracleOutcome.unavailable),
        false⟩).1.riskScore = some 0 ∧
    (runAnalysis ⟨Except.ok (),
        Except.ok (List.replicate k (analyzeCommit jsonParse OracleOutcome.unavailable)),
        List.replicate m (analyzeDependency jsonParse OracleOutcome.unavailable),
        false⟩).1.riskLevel = some RiskLevel.low ∧
    (∀ c ∈ (runAnalysis ⟨Except.ok (),
        Except.ok (List.replicate k (analyzeCommit jsonParse OracleOutcome.unavailable)),
        List.replicate m (analyzeDependency jsonParse OracleOutcome.unavailable),
        false⟩).1.commits, c.riskScore = 0 ∧ c.confidence = 0) ∧
    (∀ d ∈ (runAnalysis ⟨Except.ok (),
        Except.ok (List.replicate k (analyzeCommit jsonParse OracleOutcome.unavailable)),
        List.replicate m (analyzeDependency jsonParse OracleOutcome.unavailable),
        false⟩).1.dependencies, d.riskLevel = RiskTier.safe ∧ d.confidence = 0) ∧
    analyzeCommit jsonParse OracleOutcome.unavailable ≠ getFallbackCommitAnalysis := by
  have hac := (analyzeCommit_unavailable jsonParse).1
  have had := (analyzeCommit_unavailable jsonParse).2
  set replies := List.replicate k (analyzeCommit jsonParse OracleOutcome.unavailable)
    with hreplies
  set dvs := List.replicate m (analyzeDependency jsonParse OracleOutcome.unavailable)
    with hdvs
  have hRM : replies.map attachCommit =
      List.replicate k (attachCommit (parseErrorNoJson fallbackResponseText)) := by
    rw [hreplies, hac, List.map_replicate]
  have hDM : dvs.map attachDep =
      List.replicate m (attachDep (parseErrorNoJson fallbackResponseText)) := by
    rw [hdvs, had, List.map_replicate]
  have hA : (replies.map attachCommit).flatMap commitAlerts ++
      (dvs.map attachDep).flatMap depAlerts = [] := by
    rw [hRM, hDM, flatMap_replicate_nil k _ commitAlerts_parseError,
      flatMap_replicate_nil m _ depAlerts_parseError]
    rfl
  have hscore : calculateRiskScore ((replies.map attachCommit).map fun c => c.riskScore)
      ((dvs.map attachDep).map fun d => d.riskLevel)
      ((((replies.map attachCommit).flatMap commitAlerts) ++
          ((dvs.map attachDep).flatMap depAlerts)).map fun a => a.severity) =
      (0, RiskLevel.low) := by
    rw [hA, hRM, hDM, List.map_replicate, List.map_replicate, attachCommit_parseError,
      attachDep_parseError]
    exact calc_zero_inputs k m
  refine ⟨(runSuccess_fields replies dvs false).1, ?_, ?_, ?_, ?_, ?_⟩
  · rw [(runSuccess_scoring_ok replies dvs).1, hscore]
  · rw [(runSuccess_scoring_ok replies dvs).2, hscore]
  · intro c hc
    rw [(runSuccess_fields replies dvs false).2.1, hRM] at hc
    have := List.eq_of_mem_replicate hc
    rw [this, attachCommit_parseError]
    exact ⟨rfl, rfl⟩
  · intro d hd
    rw [(runSuccess_fields replies dvs false).2.2.1, hDM] at hd
    have := List.eq_of_mem_replicate hd
    rw [this, attachDep_parseError]
    exact ⟨rfl, rfl⟩
  · rw [hac]
    intro h
    have := congrArg AIResult.riskScore h
    simp [parseErrorNoJson, getFallbackCommitAnalysis] at this

end CodeDog

